import Mathlib

/-!
Verification development for `backfill_history.py`, a CLI tool that backfills
a git repository with a configurable number of commits per calendar day from
January 1 of a start year through today.

The embedding models:
* calendar dates as year/month/day triples with proleptic-Gregorian ordinal
  arithmetic (Python `datetime.date`);
* timestamps as a date plus an exact rational number of seconds from
  midnight (Python `datetime` arithmetic, done in exact arithmetic);
* the driver `main` as a pure function from arguments, an initial world
  (filesystem and repository state) and an oracle (today's date, the seeded
  pseudo-random generator, and the exit codes and stderr text of the external
  `git commit` invocations) to an exit code, a trace of effect events, and a
  final world.
-/

/-- A calendar date, as in Python `datetime.date`. -/
structure Date where
  year : Int
  month : Nat
  day : Nat
deriving DecidableEq, Repr

/-- A timestamp: a calendar date plus seconds from midnight, kept as an exact
rational (Python `datetime` stores microseconds; the program's arithmetic is
modelled exactly). -/
structure DateTime where
  year : Int
  month : Nat
  day : Nat
  sod : ℚ
deriving DecidableEq, Repr

/-- Leap-year test, as in Python `calendar.isleap`. -/
def isLeap (y : Int) : Bool :=
  y % 4 == 0 && (y % 100 != 0 || y % 400 == 0)

/-- Number of days in a month of a given year. -/
def daysInMonth (y : Int) : Nat → Nat
  | 1 => 31
  | 2 => if isLeap y then 29 else 28
  | 3 => 31
  | 4 => 30
  | 5 => 31
  | 6 => 30
  | 7 => 31
  | 8 => 31
  | 9 => 30
  | 10 => 31
  | 11 => 30
  | 12 => 31
  | _ => 0

/-- Days in the given year strictly before the first day of month `m`. -/
def daysBeforeMonth (y : Int) : Nat → Nat
  | 0 => 0
  | 1 => 0
  | m + 1 => daysBeforeMonth y m + daysInMonth y m

/-- Days before January 1 of year `y` in the proleptic Gregorian calendar,
as in Python `datetime.date.toordinal`. -/
def daysBeforeYear (y : Int) : Int :=
  let p := y - 1
  365 * p + p.fdiv 4 - p.fdiv 100 + p.fdiv 400

/-- Proleptic Gregorian ordinal of a date (Python `date.toordinal`):
January 1 of year 1 is day 1. -/
def toOrdinal (d : Date) : Int :=
  daysBeforeYear d.year + daysBeforeMonth d.year d.month + d.day

/-- The calendar day after `d` (Python `date + timedelta(days=1)`). -/
def nextDay (d : Date) : Date :=
  if d.day < daysInMonth d.year d.month then
    { d with day := d.day + 1 }
  else if d.month < 12 then
    { year := d.year, month := d.month + 1, day := 1 }
  else
    { year := d.year + 1, month := 1, day := 1 }

/-- `d + timedelta(days=k)` for natural `k`. -/
def dateAdd (d : Date) (k : Nat) : Date :=
  nextDay^[k] d

/-- Midnight of a calendar day (Python
`datetime.combine(base, datetime.min.time())`). -/
def dtMidnight (d : Date) : DateTime :=
  { year := d.year, month := d.month, day := d.day, sod := 0 }

/-- Seconds from midnight of `base_date.replace(hour=8, minute=0, second=0,
microsecond=0)`: 08:00:00.000000. -/
def windowStartSod : ℚ := 28800

/-- Seconds from midnight of `base_date.replace(hour=23, minute=59,
second=59, microsecond=999999)`: 23:59:59.999999. -/
def windowEndSod : ℚ := 86399 + 999999 / 1000000

/-- `(end - start).total_seconds()` for the daily commit window. -/
def spanSeconds : ℚ := windowEndSod - windowStartSod

/-- Embedding of `commits_for_day(base_date, count)` (`backfill_history.py`
lines 40-48): `count` commit timestamps spread across the given day.
`count <= 1` returns `[start] if count else []`; otherwise the timestamps are
`start + steps * i` for `i in range(count)` with
`steps = span_seconds / (count - 1)`. -/
def commits_for_day (base : DateTime) (count : Int) : List DateTime :=
  if count ≤ 1 then
    if count = 0 then [] else [{ base with sod := windowStartSod }]
  else
    let steps : ℚ := spanSeconds / ((count : ℚ) - 1)
    (List.range count.toNat).map fun (i : Nat) =>
      { base with sod := windowStartSod + steps * (i : ℚ) }

/-- Zero-pad a natural number to two digits (`strftime` field). -/
def pad2 (n : Nat) : String :=
  if n < 10 then "0" ++ toString n else toString n

/-- Zero-pad a natural number to four digits (`strftime` `%Y`). -/
def pad4 (n : Nat) : String :=
  if n < 10 then "000" ++ toString n
  else if n < 100 then "00" ++ toString n
  else if n < 1000 then "0" ++ toString n
  else toString n

/-- The whole second of the day a timestamp falls in (`strftime` truncates
sub-second detail). -/
def sodAsSecs (t : DateTime) : Nat :=
  (⌊t.sod⌋).toNat

/-- Embedding of `t.strftime("%Y-%m-%d %H:%M:%S")`. -/
def fmtFull (t : DateTime) : String :=
  let s := sodAsSecs t
  pad4 t.year.toNat ++ "-" ++ pad2 t.month ++ "-" ++ pad2 t.day ++ " " ++
    pad2 (s / 3600) ++ ":" ++ pad2 (s % 3600 / 60) ++ ":" ++ pad2 (s % 60)

/-- Embedding of `t.strftime("%Y-%m-%d %H:%M")` (commit-message suffix). -/
def fmtYMDHM (t : DateTime) : String :=
  let s := sodAsSecs t
  pad4 t.year.toNat ++ "-" ++ pad2 t.month ++ "-" ++ pad2 t.day ++ " " ++
    pad2 (s / 3600) ++ ":" ++ pad2 (s % 3600 / 60)

/-- The fixed ordered pool of commit message templates
(`backfill_history.py` lines 138-149). -/
def messagePool : List String :=
  ["Update config", "Fix typo", "Refactor module", "Add tests", "Docs",
   "Bump version", "Cleanup", "Optimize", "WIP", "Minor fix"]

/-- CLI arguments after parsing (`argparse` defaults from
`backfill_history.py` lines 75-113); the positional directory is part of the
`World` below. -/
structure Args where
  startYear : Int
  commitsPerDay : Int
  dryRun : Bool
  seed : Int
  maxDays : Option Int
deriving DecidableEq, Repr

/-- The observable state of the target directory: whether it exists, whether
it holds a `.git` directory, whether `git status --short` reports anything,
whether `README.md` exists, and the content of `history.txt` (`none` when the
file is absent). -/
structure World where
  dirExists : Bool
  isGitRepo : Bool
  statusDirty : Bool
  readmeExists : Bool
  history : Option String
deriving DecidableEq, Repr

/-- External inputs the program consumes: today's date
(`datetime.now().date()`), the seeded pseudo-random generator (modelled as a
deterministic function of the seed and the draw index, as Python's
`random.seed`/`random.choice` is), and, for the k-th backfill `git commit`
invocation, its exit code and captured stderr text. -/
structure Oracle where
  today : Date
  rng : Int → Nat → Fin messagePool.length
  rc : Nat → Int
  stderrText : Nat → String

/-- One observable effect of the run: a git subprocess invocation, a file
write, a call of `make_commit`, or a line printed to stdout/stderr. -/
inductive Event where
  | gitInit : Event
  | writeReadme : Event
  | gitAdd : String → Event
  | gitCommit : String → Option String → Event
  | gitStatus : Event
  | writeHistory : String → Event
  | makeCommitCall : Nat → String → Event
  | printPlan : Int → Int → Int → Event
  | printDryRun : Event
  | printProgress : Nat → Nat → Event
  | printDone : Nat → Nat → Event
  | printErr : String → Event
deriving DecidableEq, Repr

/-- Events that mutate the target directory (git mutations and file writes);
status queries and printing are not mutations. -/
def Event.mutates : Event → Bool
  | .gitInit => true
  | .writeReadme => true
  | .gitAdd _ => true
  | .gitCommit _ _ => true
  | .writeHistory _ => true
  | .makeCommitCall _ _ => true
  | _ => false

/-- Embedding of `init_repo(cwd)` (`backfill_history.py` lines 32-37) as its
event trace: `git init`, then — only when `README.md` does not exist — write
the default README, stage it, and `git commit -m "Initial commit"` with no
timestamp override (`none` in the override field). -/
def init_repo (readmeExists : Bool) : List Event :=
  Event.gitInit ::
    (if readmeExists then []
     else [Event.writeReadme, Event.gitAdd "README.md",
           Event.gitCommit "Initial commit" none])

/-- The line `make_commit` appends to `history.txt` for timestamp `t` and
index `i` (`backfill_history.py` line 54). -/
def commitLine (t : DateTime) (i : Nat) : String :=
  fmtFull t ++ " | commit #" ++ toString i ++ "\n"

/-- Embedding of `make_commit(cwd, commit_time, message, data_path, index)`
(`backfill_history.py` lines 51-71). `hist` is the content of `history.txt`
(`none` when absent), `rc` and `errText` the exit code and stderr of the
`git commit` subprocess. Returns the success boolean, the new content of
`history.txt`, and the event trace: write back old content plus one line,
`git add history.txt`, `git commit` with both date environment variables set
to the formatted timestamp, and, on nonzero exit code, the stderr text
forwarded to the error stream. -/
def make_commit (hist : Option String) (t : DateTime) (msg : String)
    (index : Nat) (rc : Int) (errText : String) :
    Bool × String × List Event :=
  let ts := fmtFull t
  let content := hist.getD ""
  let newContent := content ++ commitLine t index
  let evs := [Event.writeHistory newContent, Event.gitAdd "history.txt",
              Event.gitCommit msg (some ts)]
  let evs := if rc ≠ 0 then evs ++ [Event.printErr errText] else evs
  (rc == 0, newContent, evs)

/-- The inner loop of `main` over one day's timestamps
(`backfill_history.py` lines 163-166): for each timestamp pick a message by
seeded random choice from the pool, append the formatted timestamp, and call
`make_commit` with global index `commit_count + 1`; the global commit counter
advances whether or not the commit succeeded. Returns the final
`history.txt` content, the final commit counter, and the event trace. -/
def runTimes (seed : Int) (o : Oracle) :
    List DateTime → Option String → Nat → Option String × Nat × List Event
  | [], hist, c => (hist, c, [])
  | t :: ts, hist, c =>
      let msg := messagePool.get (o.rng seed c) ++ " (" ++ fmtYMDHM t ++ ")"
      let r := make_commit hist t msg (c + 1) (o.rc c) (o.stderrText c)
      let rest := runTimes seed o ts (some r.2.1) (c + 1)
      (rest.1, rest.2.1, Event.makeCommitCall (c + 1) msg :: r.2.2 ++ rest.2.2)

/-- The outer loop of `main` over the day range (`backfill_history.py`
lines 157-169): per day, generate the day's timestamps with
`commits_for_day` and run the inner loop; after every 100 processed days,
print a progress line. -/
def runDays (a : Args) (o : Oracle) :
    List Date → Option String → Nat → Nat → Option String × Nat × List Event
  | [], hist, c, _ => (hist, c, [])
  | d :: ds, hist, c, dc =>
      let times := commits_for_day (dtMidnight d) a.commitsPerDay
      let r := runTimes a.seed o times hist c
      let dc2 := dc + 1
      let prog := if dc2 % 100 = 0 then [Event.printProgress dc2 r.2.1] else []
      let rest := runDays a o ds r.1 r.2.1 dc2
      (rest.1, rest.2.1, r.2.2 ++ prog ++ rest.2.2)

/-- `total_days` (`backfill_history.py` lines 131-135):
`(today - date(start_year, 1, 1)).days + 1`, clamped with `min` to
`--max-days` when provided. -/
def totalDaysCount (a : Args) (today : Date) : Int :=
  let raw := toOrdinal today - toOrdinal ⟨a.startYear, 1, 1⟩ + 1
  match a.maxDays with
  | none => raw
  | some m => min raw m

/-- The result of a run: the process exit code, the trace of observable
effects in order, and the final state of the target directory. -/
structure RunResult where
  exitCode : Int
  events : List Event
  world : World
deriving Repr

/-- The error message for a missing target directory. -/
def errMissing : String := "Error: directory does not exist"

/-- The error message for a dirty working tree. -/
def errDirty : String :=
  "Error: working tree has uncommitted changes. Commit or stash them first."

/-- Embedding of `main()` (`backfill_history.py` lines 74-172). In order:
abort with exit 1 when the target directory does not exist; when not a dry
run, bootstrap a missing repository with `init_repo`, or on an existing
repository query `git status --short` and abort with exit 1 when it reports
anything; create `history.txt` empty when absent (not in a dry run); compute
the day count and print the plan; on a dry run stop with exit 0; otherwise
run the backfill loop over the day range and exit 0. -/
def mainRun (a : Args) (w : World) (o : Oracle) : RunResult :=
  if ¬ w.dirExists then
    ⟨1, [Event.printErr errMissing], w⟩
  else
    let bootEvs : List Event :=
      if a.dryRun then []
      else if ¬ w.isGitRepo then init_repo w.readmeExists
      else [Event.gitStatus]
    if ¬ a.dryRun ∧ w.isGitRepo ∧ w.statusDirty then
      ⟨1, bootEvs ++ [Event.printErr errDirty], w⟩
    else
      let w1 :=
        if ¬ a.dryRun ∧ ¬ w.isGitRepo then
          { w with isGitRepo := true, readmeExists := true }
        else w
      let histEvs : List Event :=
        if w.history = none ∧ ¬ a.dryRun then [Event.writeHistory ""] else []
      let w2 :=
        if w.history = none ∧ ¬ a.dryRun then { w1 with history := some "" }
        else w1
      let td := totalDaysCount a o.today
      let tc := td * a.commitsPerDay
      let planEvs : List Event := [Event.printPlan td tc a.commitsPerDay]
      if a.dryRun then
        ⟨0, bootEvs ++ histEvs ++ planEvs ++ [Event.printDryRun], w2⟩
      else
        let days := (List.range td.toNat).map (dateAdd ⟨a.startYear, 1, 1⟩)
        let r := runDays a o days w2.history 0 0
        ⟨0, bootEvs ++ histEvs ++ planEvs ++ r.2.2 ++
              [Event.printDone days.length r.2.1],
         { w2 with history := r.1 }⟩

/-- The index argument of a `make_commit` call event. -/
def callIndex : Event → Option Nat
  | .makeCommitCall i _ => some i
  | _ => none

/-- The message argument of a `make_commit` call event. -/
def callMsg : Event → Option String
  | .makeCommitCall _ m => some m
  | _ => none

/-- The sequence of global indices passed to `make_commit` during a run. -/
def callIndices (r : RunResult) : List Nat :=
  r.events.filterMap callIndex

/-- The sequence of messages passed to `make_commit` during a run. -/
def chosenMessages (r : RunResult) : List String :=
  r.events.filterMap callMsg

lemma spanSeconds_nonneg : (0 : ℚ) ≤ spanSeconds := by
  norm_num [spanSeconds, windowStartSod, windowEndSod]

lemma windowStart_add_span : windowStartSod + spanSeconds = windowEndSod := by
  rw [spanSeconds]; ring

lemma commits_for_day_two_le (base : DateTime) (count : Int) (h : 2 ≤ count) :
    commits_for_day base count =
      (List.range count.toNat).map fun (i : Nat) =>
        { base with sod := windowStartSod +
            spanSeconds / ((count : ℚ) - 1) * (i : ℚ) } := by
  rw [commits_for_day, if_neg (by omega)]

lemma count_cast_sub_one_pos (count : Int) (h : 2 ≤ count) :
    (0 : ℚ) < (count : ℚ) - 1 := by
  have : (1 : ℚ) < (count : ℚ) := by exact_mod_cast (by omega : (1 : ℤ) < count)
  linarith

/-- C1: for every calendar day, `commits_for_day` returns the empty sequence
when `count = 0`, exactly the 08:00:00.000000 timestamp of that day when
`count = 1`, and for `count ≥ 2` a sequence of exactly `count` timestamps of
that same day that is monotonically non-decreasing, starts at 08:00:00.000000,
ends at 23:59:59.999999, and has all consecutive gaps equal to
(window span in seconds) / (count - 1). -/
theorem C1_commits_for_day_window (base : DateTime) (count : Int) :
    commits_for_day base 0 = [] ∧
    commits_for_day base 1 = [{ base with sod := windowStartSod }] ∧
    (2 ≤ count →
      (commits_for_day base count).length = count.toNat ∧
      (commits_for_day base count).head? =
        some { base with sod := windowStartSod } ∧
      (commits_for_day base count).getLast? =
        some { base with sod := windowEndSod } ∧
      (commits_for_day base count).Pairwise (fun u v => u.sod ≤ v.sod) ∧
      (∀ t ∈ commits_for_day base count,
        t.year = base.year ∧ t.month = base.month ∧ t.day = base.day) ∧
      (∀ i, ∀ h : i + 1 < (commits_for_day base count).length,
        ((commits_for_day base count).get ⟨i + 1, h⟩).sod -
          ((commits_for_day base count).get ⟨i, Nat.lt_of_succ_lt h⟩).sod =
          spanSeconds / ((count : ℚ) - 1))) := by
  refine ⟨by simp [commits_for_day], by simp [commits_for_day], fun h2 => ?_⟩
  have hn : 2 ≤ count.toNat := by omega
  have hc3 : (count.toNat : ℤ) = count := Int.toNat_of_nonneg (by omega)
  have hcast : (count.toNat : ℚ) = (count : ℚ) := by
    exact_mod_cast congrArg (fun z : ℤ => (z : ℚ)) hc3
  have hpos := count_cast_sub_one_pos count h2
  rw [commits_for_day_two_le base count h2]
  set step : ℚ := spanSeconds / ((count : ℚ) - 1) with hstep
  have hstepnn : 0 ≤ step := div_nonneg spanSeconds_nonneg (le_of_lt hpos)
  refine ⟨by simp, ?_, ?_, ?_, ?_, ?_⟩
  · rw [List.head?_eq_getElem?, List.getElem?_eq_getElem (by simp; omega)]
    simp
  · rw [List.getLast?_eq_getElem?, List.getElem?_eq_getElem (by simp; omega)]
    congr 1
    have hlen : ((List.range count.toNat).map fun (i : Nat) =>
        ({ base with sod := windowStartSod + step * (i : ℚ) } : DateTime)).length
          = count.toNat := by simp
    simp only [hlen, List.getElem_map, List.getElem_range]
    have hmul : step * ((count.toNat - 1 : ℕ) : ℚ) = spanSeconds := by
      rw [Nat.cast_sub (by omega), hcast]
      push_cast
      rw [hstep, div_mul_cancel₀]
      exact ne_of_gt hpos
    rw [hmul, windowStart_add_span]
  · refine List.Pairwise.map _ ?_ (List.pairwise_lt_range count.toNat)
    intro a b hab
    simp only
    have hle : (a : ℚ) ≤ (b : ℚ) := by exact_mod_cast le_of_lt hab
    have := mul_le_mul_of_nonneg_left hle hstepnn
    linarith
  · intro t ht
    simp only [List.mem_map, List.mem_range] at ht
    obtain ⟨i, _, rfl⟩ := ht
    exact ⟨rfl, rfl, rfl⟩
  · intro i h
    simp only [List.get_eq_getElem, List.getElem_map, List.getElem_range]
    push_cast
    ring

/-- Witness for C1 at the concrete day 2024-01-01 with `count = 3`. -/
theorem C1_witness :
    (commits_for_day ⟨2024, 1, 1, 0⟩ 3).length = 3 ∧
    (commits_for_day ⟨2024, 1, 1, 0⟩ 3).head? = some ⟨2024, 1, 1, windowStartSod⟩ ∧
    (commits_for_day ⟨2024, 1, 1, 0⟩ 3).getLast? = some ⟨2024, 1, 1, windowEndSod⟩ := by
  have h := (C1_commits_for_day_window ⟨2024, 1, 1, 0⟩ 3).2.2 (by norm_num)
  exact ⟨by rw [h.1]; decide, h.2.1, h.2.2.1⟩

/-- C10: a strictly negative `count` is treated like `count = 1`: the result
is the one-element sequence holding the window start of that day. -/
theorem C10_negative_count (base : DateTime) (count : Int) (h : count < 0) :
    commits_for_day base count = [{ base with sod := windowStartSod }] := by
  rw [commits_for_day, if_pos (by omega), if_neg (by omega)]

/-- Witness for C10 at `count = -1`. -/
theorem C10_witness :
    commits_for_day ⟨2024, 1, 1, 0⟩ (-1) = [⟨2024, 1, 1, windowStartSod⟩] :=
  C10_negative_count ⟨2024, 1, 1, 0⟩ (-1) (by norm_num)

lemma make_commit_filterMap_callIndex (hist : Option String) (t : DateTime)
    (msg : String) (index : Nat) (rc : Int) (errText : String) :
    (make_commit hist t msg index rc errText).2.2.filterMap callIndex = [] := by
  simp only [make_commit]
  by_cases h : rc ≠ 0 <;> simp [h, callIndex]

lemma make_commit_filterMap_callMsg (hist : Option String) (t : DateTime)
    (msg : String) (index : Nat) (rc : Int) (errText : String) :
    (make_commit hist t msg index rc errText).2.2.filterMap callMsg = [] := by
  simp only [make_commit]
  by_cases h : rc ≠ 0 <;> simp [h, callMsg]

lemma runTimes_count (s : Int) (o : Oracle) (ts : List DateTime) :
    ∀ (hist : Option String) (c : Nat),
      (runTimes s o ts hist c).2.1 = c + ts.length := by
  induction ts with
  | nil => intro hist c; simp [runTimes]
  | cons t ts ih =>
      intro hist c
      simp only [runTimes, ih, List.length_cons]
      omega

lemma runTimes_callIndices (s : Int) (o : Oracle) (ts : List DateTime) :
    ∀ (hist : Option String) (c : Nat),
      (runTimes s o ts hist c).2.2.filterMap callIndex =
        List.range' (c + 1) ts.length := by
  induction ts with
  | nil => intro hist c; simp [runTimes]
  | cons t ts ih =>
      intro hist c
      simp only [runTimes, List.length_cons, List.filterMap_cons,
        List.filterMap_append, make_commit_filterMap_callIndex, ih, callIndex]
      rw [List.range'_succ]
      simp

/-- The sequence of messages the loop picks for the timestamps `ts` starting
at global draw index `c`: pool entry chosen by the generator, concatenated
with the formatted timestamp. -/
def msgsOf (s : Int) (g : Int → Nat → Fin messagePool.length) :
    List DateTime → Nat → List String
  | [], _ => []
  | t :: ts, c =>
      (messagePool.get (g s c) ++ " (" ++ fmtYMDHM t ++ ")") :: msgsOf s g ts (c + 1)

lemma runTimes_msgs (s : Int) (o : Oracle) (ts : List DateTime) :
    ∀ (hist : Option String) (c : Nat),
      (runTimes s o ts hist c).2.2.filterMap callMsg = msgsOf s o.rng ts c := by
  induction ts with
  | nil => intro hist c; simp [runTimes, msgsOf]
  | cons t ts ih =>
      intro hist c
      simp only [runTimes, msgsOf, List.filterMap_cons, List.filterMap_append,
        make_commit_filterMap_callMsg, ih, callMsg]
      simp

lemma runTimes_keeps (s : Int) (o : Oracle) (ts : List DateTime) :
    ∀ (t : DateTime) (hist : Option String) (c : Nat),
      ∃ r : String, (runTimes s o (t :: ts) hist c).1 =
        some ((hist.getD "" ++ commitLine t (c + 1)) ++ r) := by
  induction ts with
  | nil =>
      intro t hist c
      refine ⟨"", ?_⟩
      simp [runTimes, make_commit]
  | cons u ts ih =>
      intro t hist c
      obtain ⟨r, hr⟩ := ih u (some ((make_commit hist t
        (messagePool.get (o.rng s c) ++ " (" ++ fmtYMDHM t ++ ")")
        (c + 1) (o.rc c) (o.stderrText c)).2.1)) (c + 1)
      refine ⟨commitLine u (c + 1 + 1) ++ r, ?_⟩
      simp only [runTimes] at hr ⊢
      rw [hr]
      simp [make_commit, String.append_assoc]

/-- All timestamps planned for a list of days. -/
def allTimes (a : Args) (ds : List Date) : List DateTime :=
  ds.flatMap fun d => commits_for_day (dtMidnight d) a.commitsPerDay

lemma range'_append_one (s m n : Nat) :
    List.range' s m ++ List.range' (s + m) n = List.range' s (m + n) := by
  have h := List.range'_append s m n 1
  simp only [one_mul] at h
  rw [Nat.add_comm m n]
  exact h

lemma runDays_count (a : Args) (o : Oracle) (ds : List Date) :
    ∀ (hist : Option String) (c dc : Nat),
      (runDays a o ds hist c dc).2.1 = c + (allTimes a ds).length := by
  induction ds with
  | nil => intro hist c dc; simp [runDays, allTimes]
  | cons d ds ih =>
      intro hist c dc
      simp only [runDays, ih, runTimes_count, allTimes, List.flatMap_cons,
        List.length_append]
      omega

lemma runDays_callIndices (a : Args) (o : Oracle) (ds : List Date) :
    ∀ (hist : Option String) (c dc : Nat),
      (runDays a o ds hist c dc).2.2.filterMap callIndex =
        List.range' (c + 1) (allTimes a ds).length := by
  induction ds with
  | nil => intro hist c dc; simp [runDays, allTimes]
  | cons d ds ih =>
      intro hist c dc
      simp only [runDays, List.filterMap_append, runTimes_callIndices, ih,
        runTimes_count, allTimes, List.flatMap_cons, List.length_append]
      have hprog : List.filterMap callIndex
          (if (dc + 1) % 100 = 0 then
            [Event.printProgress (dc + 1)
              (c + (commits_for_day (dtMidnight d) a.commitsPerDay).length)]
          else []) = [] := by
        by_cases h : (dc + 1) % 100 = 0 <;> simp [h, callIndex]
      rw [hprog, List.append_nil,
        show c + (commits_for_day (dtMidnight d) a.commitsPerDay).length + 1
          = c + 1 + (commits_for_day (dtMidnight d) a.commitsPerDay).length by omega,
        range'_append_one]

lemma msgsOf_append (s : Int) (g : Int → Nat → Fin messagePool.length)
    (ts us : List DateTime) :
    ∀ c, msgsOf s g (ts ++ us) c = msgsOf s g ts c ++ msgsOf s g us (c + ts.length) := by
  induction ts with
  | nil => intro c; simp [msgsOf]
  | cons t ts ih =>
      intro c
      simp only [List.cons_append, msgsOf, List.length_cons, List.cons_append]
      rw [show msgsOf s g (ts.append us) (c + 1) = msgsOf s g (ts ++ us) (c + 1) from rfl,
        ih (c + 1), show c + 1 + ts.length = c + (ts.length + 1) by omega]

lemma runDays_msgs (a : Args) (o : Oracle) (ds : List Date) :
    ∀ (hist : Option String) (c dc : Nat),
      (runDays a o ds hist c dc).2.2.filterMap callMsg =
        msgsOf a.seed o.rng (allTimes a ds) c := by
  induction ds with
  | nil => intro hist c dc; simp [runDays, allTimes, msgsOf]
  | cons d ds ih =>
      intro hist c dc
      simp only [runDays, List.filterMap_append, runTimes_msgs, ih,
        runTimes_count, allTimes, List.flatMap_cons, msgsOf_append]
      have hprog : List.filterMap callMsg
          (if (dc + 1) % 100 = 0 then
            [Event.printProgress (dc + 1)
              (c + (commits_for_day (dtMidnight d) a.commitsPerDay).length)]
          else []) = [] := by
        by_cases h : (dc + 1) % 100 = 0 <;> simp [h, callMsg]
      rw [hprog, List.append_nil]

lemma msgsOf_mem (s : Int) (g : Int → Nat → Fin messagePool.length)
    (ts : List DateTime) :
    ∀ c m, m ∈ msgsOf s g ts c → ∃ i : Fin messagePool.length,
      ∃ t : DateTime, m = messagePool.get i ++ " (" ++ fmtYMDHM t ++ ")" := by
  induction ts with
  | nil => intro c m hm; simp [msgsOf] at hm
  | cons t ts ih =>
      intro c m hm
      simp only [msgsOf, List.mem_cons] at hm
      rcases hm with h | h
      · exact ⟨g s c, t, h⟩
      · exact ih (c + 1) m h

lemma mainRun_noDir (a : Args) (w : World) (o : Oracle) (h : w.dirExists = false) :
    mainRun a w o = ⟨1, [Event.printErr errMissing], w⟩ := by
  simp [mainRun, h]

lemma mainRun_dirty (a : Args) (w : World) (o : Oracle) (hd : a.dryRun = false)
    (he : w.dirExists = true) (hr : w.isGitRepo = true) (hs : w.statusDirty = true) :
    mainRun a w o = ⟨1, [Event.gitStatus, Event.printErr errDirty], w⟩ := by
  simp [mainRun, hd, he, hr, hs]

lemma mainRun_dry (a : Args) (w : World) (o : Oracle) (hd : a.dryRun = true)
    (he : w.dirExists = true) :
    mainRun a w o = ⟨0, [Event.printPlan (totalDaysCount a o.today)
      (totalDaysCount a o.today * a.commitsPerDay) a.commitsPerDay,
      Event.printDryRun], w⟩ := by
  simp [mainRun, hd, he]

lemma mainRun_run (a : Args) (w : World) (o : Oracle) (hd : a.dryRun = false)
    (he : w.dirExists = true)
    (hok : ¬ (w.isGitRepo = true ∧ w.statusDirty = true)) :
    mainRun a w o =
      (let bootEvs := if w.isGitRepo then [Event.gitStatus]
                      else init_repo w.readmeExists
       let w1 := if w.isGitRepo then w
                 else { w with isGitRepo := true, readmeExists := true }
       let histEvs : List Event :=
         if w.history = none then [Event.writeHistory ""] else []
       let w2 := if w.history = none then { w1 with history := some "" } else w1
       let td := totalDaysCount a o.today
       let days := (List.range td.toNat).map (dateAdd ⟨a.startYear, 1, 1⟩)
       let r := runDays a o days w2.history 0 0
       ⟨0, bootEvs ++ histEvs ++
            [Event.printPlan td (td * a.commitsPerDay) a.commitsPerDay] ++
            r.2.2 ++ [Event.printDone days.length r.2.1],
        { w2 with history := r.1 }⟩) := by
  by_cases hr : w.isGitRepo
  · have hs : w.statusDirty = false := by
      rcases Bool.eq_false_or_eq_true w.statusDirty with h | h
      · exact absurd ⟨hr, h⟩ hok
      · exact h
    simp [mainRun, hd, he, hr, hs]
  · simp [mainRun, hd, he, hr]

/-- The arguments of the worked example: start year 2024, 3 commits per day,
dry run, default seed, day cap 1. -/
def argsDry : Args := ⟨2024, 3, true, 42, some 1⟩

/-- Non-dry arguments: start year 2024, 2 commits per day, seed 42, cap 2. -/
def argsRun : Args := ⟨2024, 2, false, 42, some 2⟩

/-- An existing empty target directory that is not yet a repository. -/
def worldFresh : World := ⟨true, false, false, false, none⟩

/-- A target directory that is a clean repository. -/
def worldRepo : World := ⟨true, true, false, true, some ""⟩

/-- A target directory that is a repository with a dirty working tree. -/
def worldDirty : World := ⟨true, true, true, true, none⟩

/-- A target directory that does not exist. -/
def worldNoDir : World := ⟨false, false, false, false, none⟩

/-- A concrete oracle: today is 2024-01-01, the generator always picks pool
entry 0, and every commit subprocess exits 0 with empty stderr. -/
def oracle0 : Oracle :=
  ⟨⟨2024, 1, 1⟩, fun _ _ => ⟨0, by norm_num [messagePool]⟩, fun _ => 0, fun _ => ""⟩

/-- An oracle whose commit subprocesses all fail with exit code 1. -/
def oracleFail : Oracle :=
  ⟨⟨2024, 1, 1⟩, fun _ _ => ⟨0, by norm_num [messagePool]⟩, fun _ => 1,
   fun _ => "commit failed"⟩

lemma mainRun_callIndices (a : Args) (w : World) (o : Oracle) :
    callIndices (mainRun a w o) =
      if w.dirExists = true ∧ a.dryRun = false ∧
          ¬ (w.isGitRepo = true ∧ w.statusDirty = true) then
        List.range' 1 (allTimes a ((List.range (totalDaysCount a o.today).toNat).map
          (dateAdd ⟨a.startYear, 1, 1⟩))).length
      else [] := by
  obtain ⟨sy, cpd, dr, sd, md⟩ := a
  obtain ⟨de, ig, dirty, re, hi⟩ := w
  cases de <;> cases dr <;> cases ig <;> cases dirty <;> cases re <;>
    rcases hi with _ | hc <;>
    simp [mainRun, callIndices, callIndex, init_repo,
      List.filterMap_append, runDays_callIndices, allTimes]

lemma mainRun_msgs (a : Args) (w : World) (o : Oracle) :
    chosenMessages (mainRun a w o) =
      if w.dirExists = true ∧ a.dryRun = false ∧
          ¬ (w.isGitRepo = true ∧ w.statusDirty = true) then
        msgsOf a.seed o.rng (allTimes a ((List.range (totalDaysCount a o.today).toNat).map
          (dateAdd ⟨a.startYear, 1, 1⟩))) 0
      else [] := by
  obtain ⟨sy, cpd, dr, sd, md⟩ := a
  obtain ⟨de, ig, dirty, re, hi⟩ := w
  cases de <;> cases dr <;> cases ig <;> cases dirty <;> cases re <;>
    rcases hi with _ | hc <;>
    simp [mainRun, chosenMessages, callMsg, init_repo,
      List.filterMap_append, runDays_msgs, allTimes]

/-- C2: in every run the sequence of global indices passed to `make_commit`
is exactly 1, 2, 3, ... (it starts at 1 and increases by exactly 1 for every
planned commit, across day boundaries), and it does not depend on the
outcomes of the individual commit subprocesses (any oracle with the same
`today` yields the same index sequence). -/
theorem C2_sequential_index (a : Args) (w : World) (o o2 : Oracle)
    (ht : o2.today = o.today) :
    callIndices (mainRun a w o) =
      List.range' 1 (callIndices (mainRun a w o)).length ∧
    callIndices (mainRun a w o2) = callIndices (mainRun a w o) := by
  have h1 := mainRun_callIndices a w o
  have h2 := mainRun_callIndices a w o2
  rw [ht] at h2
  constructor
  · rw [h1]
    by_cases hc : w.dirExists = true ∧ a.dryRun = false ∧
        ¬ (w.isGitRepo = true ∧ w.statusDirty = true)
    · rw [if_pos hc]
      simp [List.length_range']
    · rw [if_neg hc]
      simp
  · rw [h1, h2]

/-- Witness for C2: a concrete fresh-directory run over two days with two
commits per day, compared against a run whose commit subprocesses all fail. -/
theorem C2_witness :
    callIndices (mainRun argsRun worldFresh oracle0) =
      List.range' 1 (callIndices (mainRun argsRun worldFresh oracle0)).length ∧
    callIndices (mainRun argsRun worldFresh oracleFail) =
      callIndices (mainRun argsRun worldFresh oracle0) :=
  C2_sequential_index argsRun worldFresh oracle0 oracleFail rfl

/-- C8: runs with the same parameters and the same generator produce the
identical sequence of chosen messages, whatever the commit outcomes; the pool
has exactly 10 entries; and every chosen message is a pool entry concatenated
with the commit's formatted timestamp. -/
theorem C8_deterministic_messages (a : Args) (w : World) (o o2 : Oracle)
    (ht : o2.today = o.today) (hr : o2.rng = o.rng) :
    chosenMessages (mainRun a w o2) = chosenMessages (mainRun a w o) ∧
    messagePool.length = 10 ∧
    (∀ m ∈ chosenMessages (mainRun a w o), ∃ i : Fin messagePool.length,
      ∃ t : DateTime, m = messagePool.get i ++ " (" ++ fmtYMDHM t ++ ")") := by
  have h1 := mainRun_msgs a w o
  have h2 := mainRun_msgs a w o2
  rw [ht, hr] at h2
  refine ⟨by rw [h1, h2], by norm_num [messagePool], ?_⟩
  intro m hm
  rw [h1] at hm
  by_cases hc : w.dirExists = true ∧ a.dryRun = false ∧
      ¬ (w.isGitRepo = true ∧ w.statusDirty = true)
  · rw [if_pos hc] at hm
    exact msgsOf_mem a.seed o.rng _ 0 m hm
  · rw [if_neg hc] at hm
    simp at hm

/-- Witness for C8: same fixed seed and parameters, one run with succeeding
commits and one with failing commits. -/
theorem C8_witness :
    chosenMessages (mainRun argsRun worldFresh oracleFail) =
      chosenMessages (mainRun argsRun worldFresh oracle0) ∧
    messagePool.length = 10 ∧
    (∀ m ∈ chosenMessages (mainRun argsRun worldFresh oracle0),
      ∃ i : Fin messagePool.length, ∃ t : DateTime,
        m = messagePool.get i ++ " (" ++ fmtYMDHM t ++ ")") :=
  C8_deterministic_messages argsRun worldFresh oracle0 oracleFail rfl rfl

/-- C7: `make_commit` writes back exactly the previous content of the log
file (empty when the file was absent) with the single line
`"<timestamp> | commit #<index>\\n"` concatenated at the end — the previous
content is preserved as a prefix and the file is never truncated. -/
theorem C7_log_append (hist : Option String) (t : DateTime) (msg : String)
    (idx : Nat) (rc : Int) (err : String) :
    (make_commit hist t msg idx rc err).2.1 =
      hist.getD "" ++ (fmtFull t ++ " | commit #" ++ toString idx ++ "\n") ∧
    Event.writeHistory (hist.getD "" ++
        (fmtFull t ++ " | commit #" ++ toString idx ++ "\n")) ∈
      (make_commit hist t msg idx rc err).2.2 := by
  constructor
  · simp [make_commit, commitLine]
  · simp only [make_commit]
    by_cases h : rc ≠ 0 <;> simp [h, commitLine]

/-- C5: when the commit subprocess exits nonzero, `make_commit` returns
`false` after forwarding the stderr text to the error stream, the line
appended to the log file before the attempt stays in place, and the driver
loop still processes every remaining planned commit (the commit counter
advances over the whole list and the appended line survives as a prefix of
the final log content). -/
theorem C5_failure_continues (hist : Option String) (t : DateTime)
    (msg : String) (idx : Nat) (rc : Int) (err : String) (h : rc ≠ 0) :
    (make_commit hist t msg idx rc err).1 = false ∧
    Event.printErr err ∈ (make_commit hist t msg idx rc err).2.2 ∧
    (make_commit hist t msg idx rc err).2.1 =
      hist.getD "" ++ commitLine t idx ∧
    (∀ (s : Int) (o : Oracle) (ts : List DateTime) (h2 : Option String)
        (c : Nat),
      (runTimes s o (t :: ts) h2 c).2.1 = c + 1 + ts.length ∧
      ∃ r : String, (runTimes s o (t :: ts) h2 c).1 =
        some ((h2.getD "" ++ commitLine t (c + 1)) ++ r)) := by
  refine ⟨?_, ?_, by simp [make_commit], ?_⟩
  · simp [make_commit]
    intro hrc
    exact absurd hrc h
  · simp only [make_commit]
    rw [if_pos h]
    simp
  · intro s o ts h2 c
    refine ⟨?_, runTimes_keeps s o ts t h2 c⟩
    rw [runTimes_count]
    simp
    omega

/-- Counterexample for C3 as stated: a dry-run invocation on a target
directory that does not exist exits with code 1, not 0. -/
theorem C3_counterexample :
    ¬ ((mainRun ⟨2020, 30, true, 42, none⟩ worldNoDir oracle0).exitCode = 0) := by
  rw [mainRun_noDir _ _ _ rfl]
  decide

/-- C3 (amended): for every dry-run invocation whose target directory exists,
the program mutates nothing (final world unchanged, no mutating event), exits
0, and prints a plan whose commit total is `total_days * commits_per_day`,
where `total_days = (today - Jan 1 of start year) + 1` clamped by `min` to
`--max-days` when provided. -/
theorem C3_dry_run_amended (a : Args) (w : World) (o : Oracle)
    (hd : a.dryRun = true) (he : w.dirExists = true) :
    (mainRun a w o).exitCode = 0 ∧
    (mainRun a w o).world = w ∧
    (∀ e ∈ (mainRun a w o).events, e.mutates = false) ∧
    (mainRun a w o).events = [Event.printPlan (totalDaysCount a o.today)
      (totalDaysCount a o.today * a.commitsPerDay) a.commitsPerDay,
      Event.printDryRun] ∧
    totalDaysCount a o.today =
      (match a.maxDays with
       | none => toOrdinal o.today - toOrdinal ⟨a.startYear, 1, 1⟩ + 1
       | some m => min (toOrdinal o.today - toOrdinal ⟨a.startYear, 1, 1⟩ + 1) m) := by
  have h := mainRun_dry a w o hd he
  rw [h]
  refine ⟨rfl, rfl, ?_, rfl, rfl⟩
  intro e he2
  simp only [List.mem_cons, List.not_mem_nil, or_false] at he2
  rcases he2 with rfl | rfl <;> rfl

/-- Witness for C3 (amended) at the concrete dry-run inputs. -/
theorem C3_witness :
    (mainRun argsDry worldFresh oracle0).exitCode = 0 ∧
    (mainRun argsDry worldFresh oracle0).world = worldFresh ∧
    (∀ e ∈ (mainRun argsDry worldFresh oracle0).events, e.mutates = false) ∧
    (mainRun argsDry worldFresh oracle0).events =
      [Event.printPlan (totalDaysCount argsDry oracle0.today)
        (totalDaysCount argsDry oracle0.today * argsDry.commitsPerDay)
        argsDry.commitsPerDay, Event.printDryRun] ∧
    totalDaysCount argsDry oracle0.today =
      (match argsDry.maxDays with
       | none => toOrdinal oracle0.today - toOrdinal ⟨argsDry.startYear, 1, 1⟩ + 1
       | some m => min (toOrdinal oracle0.today -
           toOrdinal ⟨argsDry.startYear, 1, 1⟩ + 1) m) :=
  C3_dry_run_amended argsDry worldFresh oracle0 rfl rfl

/-- C4: a non-dry run on a missing target directory aborts at once with exit
code 1 and only the error message as its trace; a non-dry run on an existing
repository with a dirty status aborts with exit code 1 after only the status
query and the error message (no backfill commit); every other case —
including dry runs and a clean no-op run — exits 0. -/
theorem C4_preflight_exit_codes (a : Args) (w : World) (o : Oracle) :
    (w.dirExists = false →
      mainRun a w o = ⟨1, [Event.printErr errMissing], w⟩) ∧
    (a.dryRun = false → w.isGitRepo = true → w.statusDirty = true →
      w.dirExists = true →
      mainRun a w o = ⟨1, [Event.gitStatus, Event.printErr errDirty], w⟩) ∧
    (w.dirExists = true →
      (a.dryRun = false → w.isGitRepo = true → w.statusDirty = false) →
      (mainRun a w o).exitCode = 0) := by
  refine ⟨fun h => mainRun_noDir a w o h,
          fun hd hr hs he => mainRun_dirty a w o hd he hr hs, ?_⟩
  intro he hclean
  rcases Bool.eq_false_or_eq_true a.dryRun with hd | hd
  · rw [mainRun_dry a w o hd he]
  · have hok : ¬ (w.isGitRepo = true ∧ w.statusDirty = true) := by
      rintro ⟨h1, h2⟩
      rw [hclean hd h1] at h2
      exact Bool.false_ne_true h2
    rw [mainRun_run a w o hd he hok]

/-- Witness for C4 at three concrete runs: missing directory, dirty
repository, clean repository. -/
theorem C4_witness :
    mainRun argsRun worldNoDir oracle0 =
      ⟨1, [Event.printErr errMissing], worldNoDir⟩ ∧
    mainRun argsRun worldDirty oracle0 =
      ⟨1, [Event.gitStatus, Event.printErr errDirty], worldDirty⟩ ∧
    (mainRun argsRun worldRepo oracle0).exitCode = 0 :=
  ⟨(C4_preflight_exit_codes argsRun worldNoDir oracle0).1 rfl,
   (C4_preflight_exit_codes argsRun worldDirty oracle0).2.1 rfl rfl rfl rfl,
   (C4_preflight_exit_codes argsRun worldRepo oracle0).2.2 rfl (fun _ _ => rfl)⟩

/-- C6: a non-dry run on an existing directory that is not yet a repository
initializes one (`git init` appears in the trace and the final world is a
repository), and when `README.md` is absent the trace continues with exactly:
write the default README, stage it, and one initial commit with no timestamp
override. -/
theorem C6_bootstrap (a : Args) (w : World) (o : Oracle) (hd : a.dryRun = false)
    (he : w.dirExists = true) (hr : w.isGitRepo = false) :
    Event.gitInit ∈ (mainRun a w o).events ∧
    (w.readmeExists = false →
      (mainRun a w o).events.take 4 = [Event.gitInit, Event.writeReadme,
        Event.gitAdd "README.md", Event.gitCommit "Initial commit" none]) ∧
    (mainRun a w o).world.isGitRepo = true := by
  obtain ⟨sy, cpd, dr, sd, md⟩ := a
  obtain ⟨de, ig, dirty, re, hi⟩ := w
  simp only at hd he hr
  subst hd he hr
  cases dirty <;> cases re <;> rcases hi with _ | hc <;>
    simp [mainRun, init_repo]

/-- Witness for C6 at a concrete fresh directory. -/
theorem C6_witness :
    Event.gitInit ∈ (mainRun argsRun worldFresh oracle0).events ∧
    (worldFresh.readmeExists = false →
      (mainRun argsRun worldFresh oracle0).events.take 4 =
        [Event.gitInit, Event.writeReadme, Event.gitAdd "README.md",
         Event.gitCommit "Initial commit" none]) ∧
    (mainRun argsRun worldFresh oracle0).world.isGitRepo = true :=
  C6_bootstrap argsRun worldFresh oracle0 rfl rfl rfl

/-- C9: with start year 2024, day cap 1 and 3 commits per day, the printed
plan is for 1 day and 3 commits, and the three timestamps generated for
2024-01-01 are 08:00:00, 15:59:59.9999995 and 23:59:59.999999 (in exact
arithmetic; Python rounds each to whole microseconds). -/
theorem C9_example_run (o : Oracle)
    (h : 1 ≤ toOrdinal o.today - toOrdinal ⟨2024, 1, 1⟩ + 1) :
    Event.printPlan 1 3 3 ∈ (mainRun argsDry worldFresh o).events ∧
    commits_for_day ⟨2024, 1, 1, 0⟩ 3 =
      [⟨2024, 1, 1, 8 * 3600⟩,
       ⟨2024, 1, 1, 15 * 3600 + 59 * 60 + 59 + (9999995 : ℚ) / 10000000⟩,
       ⟨2024, 1, 1, 23 * 3600 + 59 * 60 + 59 + (999999 : ℚ) / 1000000⟩] := by
  constructor
  · rw [mainRun_dry argsDry worldFresh o rfl rfl]
    have htd : totalDaysCount ⟨2024, 3, true, 42, some 1⟩ o.today = 1 := by
      simp only [totalDaysCount]
      exact min_eq_right h
    simp [argsDry, htd]
  · simp only [commits_for_day, windowStartSod, windowEndSod, spanSeconds]
    rw [show (3 : Int).toNat = 3 from rfl]
    norm_num [List.range_succ]

/-- Witness for C9 with today = 2024-01-01. -/
theorem C9_witness :
    Event.printPlan 1 3 3 ∈ (mainRun argsDry worldFresh oracle0).events ∧
    commits_for_day ⟨2024, 1, 1, 0⟩ 3 =
      [⟨2024, 1, 1, 8 * 3600⟩,
       ⟨2024, 1, 1, 15 * 3600 + 59 * 60 + 59 + (9999995 : ℚ) / 10000000⟩,
       ⟨2024, 1, 1, 23 * 3600 + 59 * 60 + 59 + (999999 : ℚ) / 1000000⟩] :=
  C9_example_run oracle0 (by simp [oracle0])

/-- Witness for C5: a failing commit (exit code 1) at a concrete timestamp,
and the loop still advancing the commit counter over a two-commit day. -/
theorem C5_witness :
    (make_commit none ⟨2024, 1, 1, 28800⟩ "msg" 1 1 "boom").1 = false ∧
    Event.printErr "boom" ∈
      (make_commit none ⟨2024, 1, 1, 28800⟩ "msg" 1 1 "boom").2.2 ∧
    (runTimes 42 oracleFail
      [⟨2024, 1, 1, 28800⟩, ⟨2024, 1, 1, 30000⟩] none 0).2.1 = 0 + 1 + 1 := by
  obtain ⟨h1, h2, _, h4⟩ :=
    C5_failure_continues none ⟨2024, 1, 1, 28800⟩ "msg" 1 1 "boom" (by decide)
  exact ⟨h1, h2, (h4 42 oracleFail [⟨2024, 1, 1, 30000⟩] none 0).1⟩
